import Mathlib

/-!
Verification development for the twitter-account-location-in-username
browser extension.  The content-script logic exercised by the repository's
test-suite (src/content.test.js) is embedded shallowly: the simulated
functions of that file (`loadMode`, `isCacheEntryExpired`, `saveCacheEntry`,
`processUsernamesWithMode`, `handleModeChange`, `handleButtonClick`,
`addButtonToUsername`, `displayLocationInfo`, `buildBracketedDisplay`) are
translated into executable Lean definitions, as are the pure functions of
src/countryFlags.js.  Components of the request scheduler that live only in
content.js (which is not part of the source tree here) are modelled from the
specification; their doc comments say so explicitly.
-/

namespace TwitterLoc

/-- JS `x || d` for an optional string value: `undefined`/`null` and the
empty string are falsy, any other string is returned unchanged. -/
def jsOr (x : Option String) (d : String) : String :=
  match x with
  | none => d
  | some s => if s = "" then d else s

/-- JS truthiness of an optional string (a `dataset` attribute that may be
absent): absent and the empty string are falsy. -/
def jsTruthy : Option String → Bool
  | none => false
  | some s => s != ""

/-- The location payload returned by `getUserLocation` and stored in the
cache, with the fields used throughout content.test.js.  The two flag fields
and `learnMoreUrl` may be `null` in the source, hence `Option`. -/
structure Location where
  location : String
  locationFlag : Option String
  source : String
  sourceFlag : Option String
  sourceCountry : String
  locationAccurate : Bool
  isVpn : Bool
  learnMoreUrl : Option String
deriving DecidableEq, Repr

/-- A cache entry: the location fields together with the optional `expiry`
timestamp (milliseconds), as produced by `saveCacheEntry`. -/
structure CacheEntry where
  loc : Location
  expiry : Option Nat
deriving DecidableEq, Repr

/-- The location cache, a JS `Map` from screen name to entry, embedded as an
association list without duplicate keys on the search path. -/
def CacheList : Type := List (String × CacheEntry)

/-- JS `Map.get`. -/
def cacheGet (c : CacheList) (k : String) : Option CacheEntry :=
  match c with
  | [] => none
  | (k', v) :: rest => if k' = k then some v else cacheGet rest k

/-- JS `Map.set`: replaces the entry of an existing key in place, otherwise
appends the new pair. -/
def cacheSet (c : CacheList) (k : String) (v : CacheEntry) : CacheList :=
  match c with
  | [] => [(k, v)]
  | (k', v') :: rest =>
    if k' = k then (k, v) :: rest else (k', v') :: cacheSet rest k v

/-- `isCacheEntryExpired` from content.test.js: a missing entry, or a falsy
`expiry` field (JS `!cacheEntry.expiry`, which also treats the timestamp `0`
as missing), counts as expired; otherwise the entry is expired exactly when
`expiry <= Date.now()`. -/
def isCacheEntryExpired (cacheEntry : Option CacheEntry) (now : Nat) : Bool :=
  match cacheEntry with
  | none => true
  | some e =>
    match e.expiry with
    | none => true
    | some t => if t = 0 then true else decide (t ≤ now)

/-- `CACHE_EXPIRY_DAYS` from `saveCacheEntry` in content.test.js. -/
def CACHE_EXPIRY_DAYS : Nat := 30

/-- `saveCacheEntry` from content.test.js: stores the fetched location
together with `expiry = now + 30 days`, via `Map.set` (unconditional
overwrite of any prior entry for that username). -/
def saveCacheEntry (cache : CacheList) (username : String) (location : Location)
    (now : Nat) : CacheList :=
  let expiry := now + CACHE_EXPIRY_DAYS * 24 * 60 * 60 * 1000
  cacheSet cache username { loc := location, expiry := some expiry }

/-! ### Mode storage -/

/-- `MODE_KEY` from content.test.js and the popup script. -/
def MODE_KEY : String := "display_mode"

/-- `MODE_AUTO` from content.test.js and the popup script. -/
def MODE_AUTO : String := "auto"

/-- `MODE_MANUAL` from content.test.js and the popup script. -/
def MODE_MANUAL : String := "manual"

/-- `DEFAULT_MODE` from the popup script. -/
def DEFAULT_MODE : String := MODE_AUTO

/-- The relevant contents of `chrome.storage.local`: each key either holds a
string or is absent. -/
def Storage : Type := String → Option String

/-- `loadMode` from content.test.js: reads `MODE_KEY` from storage and
returns `result[MODE_KEY] || MODE_AUTO`.  The read performs no write, so the
storage is returned unchanged alongside the mode. -/
def loadMode (s : Storage) : String × Storage :=
  (jsOr (s MODE_KEY) MODE_AUTO, s)

/-- `loadMode` from the popup script: `currentMode = mode || DEFAULT_MODE`. -/
def popupLoadMode (mode : Option String) : String :=
  jsOr mode DEFAULT_MODE

/-- The popup script's startup read: `result[MODE_KEY] || DEFAULT_MODE`
passed to its `loadMode`. -/
def popupInitMode (s : Storage) : String :=
  popupLoadMode (some (jsOr (s MODE_KEY) DEFAULT_MODE))

/-! ### Containers and processing

A tweet container is abstracted to the facts the processing logic reads and
writes: the screen name `extractUsernameFromContainer` would return for it,
whether the `User-Name` sub-container is present (insertion succeeds exactly
when it is), the `dataset.flagAdded` status string, and which of the
location-button / flag-wrapper elements are currently inserted (with the
wrapper's text content). -/

structure Container where
  screenName : Option String
  hasUserName : Bool
  flagAdded : Option String
  hasButton : Bool
  buttonName : Option String
  hasFlagWrapper : Bool
  flagText : Option String
deriving DecidableEq, Repr

/-- `buildBracketedDisplay` from content.test.js: the text content of the
flag wrapper, `[locationFlag | accuracy | sourceFlag]` with `•` for a falsy
flag. -/
def buildBracketedDisplay (displayInfo : Location) : String :=
  "[" ++ jsOr displayInfo.locationFlag "•" ++ " | " ++
    (if displayInfo.locationAccurate then "✅" else "ℹ️") ++ " | " ++
    jsOr displayInfo.sourceFlag "•" ++ "]"

/-- `displayLocationInfo` from content.test.js: marks the container
`processing`, then inserts the bracketed wrapper next to the handle section
and marks `true`; when the `User-Name` container is missing it marks
`failed` and inserts nothing.  (`buildBracketedDisplay` always returns an
element in the source, so its null check is unreachable; the `screenName`
argument only selects the insertion position.) -/
def displayLocationInfo (c : Container) (screenName : String)
    (displayInfo : Location) : Container :=
  let c1 := { c with flagAdded := some "processing" }
  if c1.hasUserName then
    { c1 with hasFlagWrapper := true,
              flagText := some (buildBracketedDisplay displayInfo),
              flagAdded := some "true" }
  else
    { c1 with flagAdded := some "failed" }

/-- `addButtonToUsername` from content.test.js: returns immediately when
`dataset.flagAdded` is truthy, otherwise marks the container `button` and
inserts the location button (carrying `data-screen-name`) when the
`User-Name` container exists. -/
def addButtonToUsername (c : Container) (screenName : String) : Container :=
  if jsTruthy c.flagAdded then c
  else
    let c1 := { c with flagAdded := some "button" }
    if c1.hasUserName then
      { c1 with hasButton := true, buttonName := some screenName }
    else c1

/-- The per-container body of `processUsernamesWithMode` from
content.test.js: skip containers without a screen name or already in status
`true`/`processing`/`waiting`/`button`; otherwise check the cache first
regardless of mode — on a hit display the cached data, on a miss either
initiate a fetch (auto mode, container marked `processing`, one Fetcher
request for the screen name) or insert the button (manual mode, no fetch).
Returns the updated container and the list of Fetcher requests issued. -/
def processUsernameWithMode (mode : String) (cache : CacheList)
    (c : Container) : Container × List String :=
  match c.screenName with
  | none => (c, [])
  | some screenName =>
    if c.flagAdded = some "true" ∨ c.flagAdded = some "processing" ∨
        c.flagAdded = some "waiting" ∨ c.flagAdded = some "button" then
      (c, [])
    else
      match cacheGet cache screenName with
      | some cachedLocation =>
        (displayLocationInfo c screenName cachedLocation.loc, [])
      | none =>
        if mode = MODE_AUTO then
          ({ c with flagAdded := some "processing" }, [screenName])
        else
          (addButtonToUsername c screenName, [])

/-- `processUsernamesWithMode` from content.test.js over the list of
containers found in the document. -/
def processUsernamesWithMode (mode : String) (cache : CacheList) :
    List Container → List Container × List String
  | [] => ([], [])
  | c :: rest =>
    let (c', reqs) := processUsernameWithMode mode cache c
    let (rest', reqs') := processUsernamesWithMode mode cache rest
    (c' :: rest', reqs ++ reqs')

/-- Repeated processing of one container (the mutation observer re-running
`processUsernames` over the same document), accumulating all Fetcher
requests issued across the runs. -/
def processIterate (mode : String) (cache : CacheList) (c : Container) :
    Nat → Container × List String
  | 0 => (c, [])
  | n + 1 =>
    let (c', reqs) := processUsernameWithMode mode cache c
    let (c'', reqs') := processIterate mode cache c' n
    (c'', reqs ++ reqs')

/-- The UI element occupying a username's flag slot during the button-click
flow of content.test.js. -/
inductive UiSlot
  | locButton (screenName : String)
  | shimmer
  | flagDisplay (text : String)
  | errorIcon
deriving DecidableEq, Repr

/-- The outcome of the `getUserLocation` call awaited by
`handleButtonClick`. -/
inductive FetchReply
  | success (locationInfo : Location)
  | noInfo
  | failure
deriving DecidableEq, Repr

/-- `handleButtonClick` from content.test.js: replaces the clicked button
with a shimmer, invokes `getUserLocation` once for exactly the clicked
screen name, then replaces the shimmer with the bracketed display on
success or with the error indicator when the fetch resolves null or
rejects.  Returns the final slot content and the Fetcher requests made. -/
def handleButtonClick (screenName : String) (reply : FetchReply) :
    UiSlot × List String :=
  (match reply with
   | .success locationInfo => .flagDisplay (buildBracketedDisplay locationInfo)
   | .noInfo => .errorIcon
   | .failure => .errorIcon,
   [screenName])

/-- The per-container body of `handleModeChange` from content.test.js.
Switching to auto: for each button, find the container whose extracted
username equals the button's `data-screen-name` (skip the button otherwise),
remove the button, clear the status, then cache hit → display, miss → mark
`processing`.  Switching to manual: containers showing a flag wrapper whose
username has no cache entry get the wrapper removed and a button inserted.
The cache is only read. -/
def handleModeChangeOne (newMode : String) (cache : CacheList)
    (c : Container) : Container :=
  if newMode = MODE_AUTO then
    if c.hasButton then
      match c.buttonName with
      | none => c
      | some b =>
        if c.screenName = some b then
          let c1 := { c with hasButton := false, buttonName := none,
                             flagAdded := none }
          match cacheGet cache b with
          | some cachedLocation => displayLocationInfo c1 b cachedLocation.loc
          | none => { c1 with flagAdded := some "processing" }
        else c
    else c
  else
    match c.screenName with
    | none => c
    | some screenName =>
      if c.hasFlagWrapper && (cacheGet cache screenName).isNone then
        addButtonToUsername
          { c with hasFlagWrapper := false, flagText := none,
                   flagAdded := none } screenName
      else c

/-- `handleModeChange` from content.test.js over the whole document: the
containers are reconciled, the cache is passed through untouched (the
source only ever calls `cache.get`). -/
def handleModeChange (newMode : String) (cs : List Container)
    (cache : CacheList) : List Container × CacheList :=
  (cs.map (handleModeChangeOne newMode cache), cache)

/-! ### Request scheduler (dedup / fan-in)

The dedup behaviour of the real request pipeline lives in content.js
(`getUserLocation` and its request queue), which is not part of this source
tree; the component is therefore modelled from the specification. -/

/-- Modelled from the spec: the scheduler state of `RequestScheduler.submit`
and `ProcessingStateTracker.tryClaim` (content.js's `getUserLocation` /
request queue is not under src/).  `claimed` holds the keys whose lookup is
outstanding (Queued or InFlight), `dispatched` the Fetcher invocations
issued so far in order, `waiters` the pending futures attached to keys. -/
structure Scheduler where
  claimed : List String
  dispatched : List String
  waiters : List (String × Nat)
deriving DecidableEq, Repr

/-- Modelled from the spec: `submit(key)` on a cache miss.  If another
caller already claimed the key, the new future attaches to the in-flight
work (fan-in, no new Fetcher invocation); otherwise the key is claimed and
exactly one Fetcher invocation is issued for it. -/
def submitKey (st : Scheduler) (key : String) (fid : Nat) : Scheduler :=
  if st.claimed.contains key then
    { st with waiters := st.waiters ++ [(key, fid)] }
  else
    { claimed := st.claimed ++ [key],
      dispatched := st.dispatched ++ [key],
      waiters := st.waiters ++ [(key, fid)] }

/-- A sequence of `submit` calls for one key, none of which resolves before
the next is made. -/
def submitAll (st : Scheduler) (key : String) : List Nat → Scheduler
  | [] => st
  | fid :: fids => submitAll (submitKey st key fid) key fids

/-- Modelled from the spec: when the single in-flight lookup for `key`
completes with value `v`, every future attached to `key` resolves with that
same value. -/
def resolveFutures (st : Scheduler) (key : String) (v : Location) :
    List (Nat × Location) :=
  (st.waiters.filter (fun p => p.1 = key)).map (fun p => (p.2, v))

/-- Number of Fetcher invocations recorded for `key`. -/
def countKey (l : List String) (k : String) : Nat :=
  (l.filter (fun x => x = k)).length

/-! ### Rate limiter

The pacing and concurrency enforcement lives in content.js
(`processRequestQueue`), not in this source tree; content.test.js only
fixes the constants.  The component is modelled from the specification. -/

/-- `MIN_REQUEST_INTERVAL` from content.test.js (Rate Limiting Consistency). -/
def MIN_REQUEST_INTERVAL : Nat := 2000

/-- `MAX_CONCURRENT_REQUESTS` from content.test.js (Rate Limiting
Consistency). -/
def MAX_CONCURRENT_REQUESTS : Nat := 2

/-- Modelled from the spec: the rate limiter configuration, adjustable
without code changes. -/
structure RLConfig where
  minInterval : Nat
  maxConcurrent : Nat
deriving DecidableEq, Repr

/-- The reference configuration: the defaults fixed by content.test.js. -/
def defaultConfig : RLConfig :=
  { minInterval := MIN_REQUEST_INTERVAL, maxConcurrent := MAX_CONCURRENT_REQUESTS }

/-- Modelled from the spec: `RateLimiterState` with `lastDispatchAt` absent
before the first dispatch. -/
structure RateLimiterState where
  lastDispatchAt : Option Nat
  inFlightCount : Nat
  blockedUntil : Option Nat
deriving DecidableEq, Repr

/-- The rate limiter state at process start. -/
def rlInit : RateLimiterState :=
  { lastDispatchAt := none, inFlightCount := 0, blockedUntil := none }

/-- Modelled from the spec: `tryAcquire` grants exactly when the in-flight
count is below `maxConcurrent`, at least `minInterval` has elapsed since the
last dispatch, and no cooldown is pending. -/
def tryAcquire (cfg : RLConfig) (st : RateLimiterState) (now : Nat) : Bool :=
  decide (st.inFlightCount < cfg.maxConcurrent) &&
  (match st.lastDispatchAt with
   | none => true
   | some last => decide (last + cfg.minInterval ≤ now)) &&
  (match st.blockedUntil with
   | none => true
   | some b => decide (b ≤ now))

/-- Where a dispatched request originated: the automatic miss path or a
manual button click.  The limiter never inspects it. -/
inductive Origin
  | autoScan
  | manualClick
deriving DecidableEq, Repr

/-- An observable event of the scheduler's drain loop: a dispatch (a Fetcher
invocation starting, with its key and origin), the completion of a
dispatched call, or a throttling signal tripping the limiter. -/
inductive RLEvent
  | dispatch (t : Nat) (key : String) (origin : Origin)
  | release (t : Nat)
  | trip (t : Nat) (untilT : Nat)
deriving DecidableEq, Repr

/-- Modelled from the spec: validity of an event trace against the rate
limiter, threading the state.  Times are nondecreasing; every dispatch must
be granted by `tryAcquire` and increments the in-flight count; every release
decrements it; a trip sets the cooldown. -/
def validFrom (cfg : RLConfig) (st : RateLimiterState) (prevTime : Nat) :
    List RLEvent → Bool
  | [] => true
  | .dispatch t _ _ :: rest =>
    decide (prevTime ≤ t) && tryAcquire cfg st t &&
    validFrom cfg
      { st with lastDispatchAt := some t, inFlightCount := st.inFlightCount + 1 }
      t rest
  | .release t :: rest =>
    decide (prevTime ≤ t) && decide (0 < st.inFlightCount) &&
    validFrom cfg { st with inFlightCount := st.inFlightCount - 1 } t rest
  | .trip t untilT :: rest =>
    decide (prevTime ≤ t) &&
    validFrom cfg { st with blockedUntil := some untilT } t rest

/-- A trace is valid when it is valid from the initial limiter state. -/
def validTrace (cfg : RLConfig) (evs : List RLEvent) : Bool :=
  validFrom cfg rlInit 0 evs

/-- The start times of Fetcher invocations, in trace order. -/
def dispatchTimes : List RLEvent → List Nat
  | [] => []
  | .dispatch t _ _ :: rest => t :: dispatchTimes rest
  | _ :: rest => dispatchTimes rest

/-- The running in-flight count after each event of a trace, starting from
count `n`. -/
def inFlightProfile (n : Nat) : List RLEvent → List Nat
  | [] => []
  | .dispatch _ _ _ :: rest => (n + 1) :: inFlightProfile (n + 1) rest
  | .release _ :: rest => (n - 1) :: inFlightProfile (n - 1) rest
  | .trip _ _ :: rest => n :: inFlightProfile n rest

/-- Re-tag every dispatch's origin (e.g. turn automatic requests into manual
button clicks). -/
def mapOrigin (f : Origin → Origin) : List RLEvent → List RLEvent
  | [] => []
  | .dispatch t k o :: rest => .dispatch t k (f o) :: mapOrigin f rest
  | .release t :: rest => .release t :: mapOrigin f rest
  | .trip t u :: rest => .trip t u :: mapOrigin f rest

/-! ### Lookup completion

How a finished Fetcher invocation updates the cache lives in content.js's
`getUserLocation`; the handler is modelled from the specification, reusing
the `saveCacheEntry` embedded from content.test.js for the success path. -/

/-- The possible outcomes of a Fetcher invocation for a key. -/
inductive FetchOutcome
  | success (v : Location)
  | timeout
  | transportFailure
  | noResult
deriving DecidableEq, Repr

/-- Modelled from the spec: completion handling of a Fetcher invocation
(content.js's `getUserLocation` is not under src/).  Success stores the
result via `saveCacheEntry` and resolves the caller with the value; a
timeout, transport failure or empty result resolves the caller with null
and performs no cache write. -/
def completeLookup (cache : CacheList) (key : String) (outcome : FetchOutcome)
    (now : Nat) : CacheList × Option Location :=
  match outcome with
  | .success v => (saveCacheEntry cache key v now, some v)
  | .timeout => (cache, none)
  | .transportFailure => (cache, none)
  | .noResult => (cache, none)

/-! ### countryFlags.js -/

/-- The exact set of code points JS `String.prototype.trim` strips
(ECMA-262 TrimString): the WhiteSpace production — TAB `0009`, VT `000B`,
FF `000C`, ZWNBSP `FEFF` and the Space_Separator category (`0020`, NBSP
`00A0`, `1680`, `2000`–`200A`, `202F`, `205F`, `3000`) — together with the
LineTerminator code points LF `000A`, CR `000D`, LS `2028`, PS `2029`. -/
def jsWhitespace (c : Char) : Bool :=
  c.toNat = 0x9 || c.toNat = 0xA || c.toNat = 0xB || c.toNat = 0xC ||
  c.toNat = 0xD || c.toNat = 0x20 || c.toNat = 0xA0 || c.toNat = 0x1680 ||
  (0x2000 ≤ c.toNat && c.toNat ≤ 0x200A) ||
  c.toNat = 0x2028 || c.toNat = 0x2029 || c.toNat = 0x202F ||
  c.toNat = 0x205F || c.toNat = 0x3000 || c.toNat = 0xFEFF

/-- JS `String.prototype.trim` over the character list: strip the
`jsWhitespace` code points from both ends. -/
def jsTrim (s : String) : String :=
  String.mk
    (((s.data.dropWhile jsWhitespace).reverse.dropWhile
        jsWhitespace).reverse)

/-- JS `String.prototype.toLowerCase`, restricted to the ASCII simple case
mapping (`Char.toLower`).  This coincides with the full JS `toLowerCase` on
every all-ASCII string (ASCII has no special casing), and on every key of
`COUNTRY_FLAGS` (the table's single non-ASCII letter, the `ô` of
`Côte d\x27Ivoire`, is already lower case, and JS maps it to itself); it is
not a model of `toLowerCase` on other non-ASCII input, so statements that
depend on lowering the input carry an all-ASCII hypothesis. -/
def jsToLower (s : String) : String :=
  String.mk (s.data.map Char.toLower)

/-- Every character of the string is ASCII (code point below 128): the
domain on which `jsToLower` agrees with JS `toLowerCase`. -/
def allAscii (s : String) : Bool :=
  s.data.all (fun c => c.toNat < 128)

/-- First-match lookup in an association list (the own string properties of
a JS object literal, in insertion order; all keys here are distinct). -/
def assocLookup {α : Type} : List (String × α) → String → Option α
  | [], _ => none
  | (k', v) :: rest, k => if k' = k then some v else assocLookup rest k

/-- `COUNTRY_FLAGS` from countryFlags.js: country name to ISO (or special)
code, in source order. -/
def COUNTRY_FLAGS : List (String × String) := [
  ("Afghanistan", "AF"), ("Albania", "AL"), ("Algeria", "DZ"), ("Andorra", "AD"), ("Angola", "AO"),
  ("Antigua and Barbuda", "AG"), ("Argentina", "AR"), ("Armenia", "AM"), ("Australia", "AU"),
  ("Austria", "AT"), ("Azerbaijan", "AZ"), ("Bahamas", "BS"), ("Bahrain", "BH"), ("Bangladesh", "BD"),
  ("Barbados", "BB"), ("Belarus", "BY"), ("Belgium", "BE"), ("Belize", "BZ"), ("Benin", "BJ"),
  ("Bhutan", "BT"), ("Bolivia", "BO"), ("Bosnia and Herzegovina", "BA"), ("Botswana", "BW"),
  ("Brazil", "BR"), ("Brunei", "BN"), ("Bulgaria", "BG"), ("Burkina Faso", "BF"), ("Burundi", "BI"),
  ("Cabo Verde", "CV"), ("Cambodia", "KH"), ("Cameroon", "CM"), ("Canada", "CA"),
  ("Central African Republic", "CF"), ("Chad", "TD"), ("Chile", "CL"), ("China", "CN"),
  ("Colombia", "CO"), ("Comoros", "KM"), ("Congo", "CG"), ("Democratic Republic of the Congo", "CD"),
  ("DR Congo", "CD"), ("Costa Rica", "CR"), ("Côte d\x27Ivoire", "CI"), ("Ivory Coast", "CI"),
  ("Croatia", "HR"), ("Cuba", "CU"), ("Cyprus", "CY"), ("Czechia", "CZ"), ("Czech Republic", "CZ"),
  ("Denmark", "DK"), ("Djibouti", "DJ"), ("Dominica", "DM"), ("Dominican Republic", "DO"),
  ("Ecuador", "EC"), ("Egypt", "EG"), ("El Salvador", "SV"), ("Equatorial Guinea", "GQ"),
  ("Eritrea", "ER"), ("Estonia", "EE"), ("Eswatini", "SZ"), ("Ethiopia", "ET"), ("Fiji", "FJ"),
  ("Finland", "FI"), ("France", "FR"), ("Gabon", "GA"), ("Gambia", "GM"), ("Georgia", "GE"),
  ("Germany", "DE"), ("Ghana", "GH"), ("Greece", "GR"), ("Grenada", "GD"), ("Guatemala", "GT"),
  ("Guinea", "GN"), ("Guinea-Bissau", "GW"), ("Guyana", "GY"), ("Haiti", "HT"), ("Honduras", "HN"),
  ("Hungary", "HU"), ("Iceland", "IS"), ("India", "IN"), ("Indonesia", "ID"), ("Iran", "IR"),
  ("Iraq", "IQ"), ("Ireland", "IE"), ("Israel", "IL"), ("Italy", "IT"), ("Jamaica", "JM"),
  ("Japan", "JP"), ("Jordan", "JO"), ("Kazakhstan", "KZ"), ("Kenya", "KE"), ("Kiribati", "KI"),
  ("Kosovo", "XK"), ("Kuwait", "KW"), ("Kyrgyzstan", "KG"), ("Laos", "LA"), ("Latvia", "LV"),
  ("Lebanon", "LB"), ("Lesotho", "LS"), ("Liberia", "LR"), ("Libya", "LY"), ("Liechtenstein", "LI"),
  ("Lithuania", "LT"), ("Luxembourg", "LU"), ("Madagascar", "MG"), ("Malawi", "MW"),
  ("Malaysia", "MY"), ("Maldives", "MV"), ("Mali", "ML"), ("Malta", "MT"), ("Marshall Islands", "MH"),
  ("Mauritania", "MR"), ("Mauritius", "MU"), ("Mexico", "MX"), ("Micronesia", "FM"), ("Moldova", "MD"),
  ("Monaco", "MC"), ("Mongolia", "MN"), ("Montenegro", "ME"), ("Morocco", "MA"), ("Mozambique", "MZ"),
  ("Myanmar", "MM"), ("Namibia", "NA"), ("Nauru", "NR"), ("Nepal", "NP"), ("Netherlands", "NL"),
  ("New Zealand", "NZ"), ("Nicaragua", "NI"), ("Niger", "NE"), ("Nigeria", "NG"),
  ("North Korea", "KP"), ("North Macedonia", "MK"), ("Norway", "NO"), ("Oman", "OM"),
  ("Pakistan", "PK"), ("Palau", "PW"), ("Palestine", "PS"), ("Panama", "PA"),
  ("Papua New Guinea", "PG"), ("Paraguay", "PY"), ("Peru", "PE"), ("Philippines", "PH"),
  ("Poland", "PL"), ("Portugal", "PT"), ("Qatar", "QA"), ("Romania", "RO"), ("Russia", "RU"),
  ("Rwanda", "RW"), ("Saint Kitts and Nevis", "KN"), ("Saint Lucia", "LC"),
  ("Saint Vincent and the Grenadines", "VC"), ("Samoa", "WS"), ("San Marino", "SM"),
  ("Sao Tome and Principe", "ST"), ("Saudi Arabia", "SA"), ("Senegal", "SN"), ("Serbia", "RS"),
  ("Seychelles", "SC"), ("Sierra Leone", "SL"), ("Singapore", "SG"), ("Slovakia", "SK"),
  ("Slovenia", "SI"), ("Solomon Islands", "SB"), ("Somalia", "SO"), ("South Africa", "ZA"),
  ("South Korea", "KR"), ("Korea", "KR"), ("South Sudan", "SS"), ("Spain", "ES"),
  ("Sri Lanka", "LK"), ("Sudan", "SD"), ("Suriname", "SR"), ("Sweden", "SE"), ("Switzerland", "CH"),
  ("Syria", "SY"), ("Taiwan", "TW"), ("Tajikistan", "TJ"), ("Tanzania", "TZ"), ("Thailand", "TH"),
  ("Timor-Leste", "TL"), ("East Timor", "TL"), ("Togo", "TG"), ("Tonga", "TO"),
  ("Trinidad and Tobago", "TT"), ("Tunisia", "TN"), ("Turkey", "TR"), ("Turkmenistan", "TM"),
  ("Tuvalu", "TV"), ("Uganda", "UG"), ("Ukraine", "UA"), ("United Arab Emirates", "AE"), ("UAE", "AE"),
  ("United Kingdom", "GB"), ("UK", "GB"), ("Great Britain", "GB"), ("Britain", "GB"),
  ("United States", "US"), ("USA", "US"), ("America", "US"), ("Uruguay", "UY"), ("Uzbekistan", "UZ"),
  ("Vanuatu", "VU"), ("Vatican City", "VA"), ("Venezuela", "VE"), ("Vietnam", "VN"),
  ("Yemen", "YE"), ("Zambia", "ZM"), ("Zimbabwe", "ZW"),
  ("Europe", "EU"), ("European Union", "EU"), ("EU", "EU"),
  ("Hong Kong", "HK"), ("Macau", "MO"), ("Puerto Rico", "PR"),
  ("England", "ENG"),
  ("Scotland", "SCT"),
  ("Wales", "WAL"),
  ("Northern Ireland", "GB")]

/-- `codeToFlag` from countryFlags.js: a valid 2-letter code in A–Z becomes
the pair of regional-indicator code points at offset `0x1F1E6` from `A`;
anything else yields null.  (JS indexes UTF-16 code units; a string passes
both the length-2 check and the 0–25 range checks exactly when it is two
ASCII letters A–Z, on which code units and code points agree.) -/
def codeToFlag (code : String) : Option String :=
  match code.data with
  | [ch1, ch2] =>
    let c1 : Int := (ch1.toNat : Int) - 65
    let c2 : Int := (ch2.toNat : Int) - 65
    if c1 < 0 || c1 > 25 || c2 < 0 || c2 > 25 then none
    else some (String.mk [Char.ofNat (0x1F1E6 + c1.toNat),
                          Char.ofNat (0x1F1E6 + c2.toNat)])
  | _ => none

/-- `SPECIAL_FLAG_EMOJIS` from countryFlags.js.  No code stored in
`COUNTRY_FLAGS` collides with an `Object.prototype` member name, so the
JS property read on this literal is plain own-property lookup. -/
def SPECIAL_FLAG_EMOJIS : List (String × String) :=
  [("XK", "XK"), ("EU", "EU"), ("ENG", "gbeng"), ("SCT", "gbsct"), ("WAL", "gbwls")]

/-- `SPECIAL_FLAG_EMOJIS[code] || codeToFlag(code)` for a string code. -/
def flagForCode (code : String) : Option String :=
  match assocLookup SPECIAL_FLAG_EMOJIS code with
  | some s => some s
  | none => codeToFlag code

/-- JS `sub` being a substring of `s` starting at the front
(`String.prototype.startsWith`), over code points. -/
def jsStartsWith : List Char → List Char → Bool
  | [], _ => true
  | _ :: _, [] => false
  | a :: as, b :: bs => a = b && jsStartsWith as bs

/-- Helper for `jsIncludes`: scan every suffix. -/
def jsIncludesAux (sub : List Char) : List Char → Bool
  | [] => sub.isEmpty
  | c :: rest => jsStartsWith sub (c :: rest) || jsIncludesAux sub rest

/-- JS `s.includes(sub)`: `sub` occurs contiguously in `s`.  Over code
points; the inputs compared here are either table keys or arbitrary user
text, and occurrence of one in the other is codepoint-wise. -/
def jsIncludes (s sub : String) : Bool :=
  jsIncludesAux sub.data s.data

/-- The case-insensitive / substring fallback loop of `getCountryFlag`:
`Object.entries(COUNTRY_FLAGS)` yields the own properties in order, and the
first key whose lowercase form equals, contains, or is contained in the
lowered name wins (returning that entry's flag, even if null).  `jsToLower`
is exact on every table key; for the lowered input it is exact on all-ASCII
names (see `allAscii`). -/
def fuzzyScan (lower : String) : List (String × String) → Option String
  | [] => none
  | (key, code) :: rest =>
    let kl := jsToLower key
    if kl = lower || jsIncludes kl lower || jsIncludes lower kl then
      flagForCode code
    else fuzzyScan lower rest

/-- A value produced by the JS property read `COUNTRY_FLAGS[name]`: a string
own-property, an inherited `Object.prototype` function member (carrying its
`.length` arity), the inherited `__proto__` accessor's result (the prototype
object itself), or `undefined`. -/
inductive JsProp
  | str (s : String)
  | protoFn (arity : Nat)
  | protoObj
  | undefinedJs
deriving DecidableEq, Repr

/-- The members inherited from `Object.prototype` that a bracket read on an
object literal reaches in a browser (ECMA-262 section 20.1.3 together with
the Annex B legacy accessors), each function with its `.length`. -/
def objectProtoMembers : List (String × Nat) :=
  [("constructor", 1), ("hasOwnProperty", 1), ("isPrototypeOf", 1),
   ("propertyIsEnumerable", 1), ("toLocaleString", 0), ("toString", 0),
   ("valueOf", 0),
   ("__defineGetter__", 2), ("__defineSetter__", 2),
   ("__lookupGetter__", 1), ("__lookupSetter__", 1)]

/-- The JS property read `COUNTRY_FLAGS[name]`: own properties first, then
the inherited `__proto__` object and `Object.prototype` function members,
else `undefined`. -/
def objGet (own : List (String × String)) (name : String) : JsProp :=
  match assocLookup own name with
  | some s => .str s
  | none =>
    if name = "__proto__" then .protoObj
    else
      match assocLookup objectProtoMembers name with
      | some n => .protoFn n
      | none => .undefinedJs

/-- `SPECIAL_FLAG_EMOJIS[code] || codeToFlag(code)` when the looked-up
`code` is not a string but an inherited value.  A function or object key is
coerced to a string that is no key of `SPECIAL_FLAG_EMOJIS`, so `codeToFlag`
runs: a function's `.length` equal to 2 passes the length check and the
subsequent `code.charCodeAt(0)` call throws a TypeError (functions have no
`charCodeAt`); any other arity fails the `!== 2` length check and returns
null, as does the prototype object (whose `.length` is `undefined`). -/
def flagForCodeInherited (p : JsProp) : Except String (Option String) :=
  match p with
  | .str s => .ok (flagForCode s)
  | .protoFn arity =>
    if arity = 2 then .error "TypeError: code.charCodeAt is not a function"
    else .ok none
  | .protoObj => .ok none
  | .undefinedJs => .error "TypeError: Cannot read properties of undefined"

/-- `getCountryFlag` from countryFlags.js, with JS object-literal property
lookup semantics (including the prototype chain) for the exact-match step.
A falsy input returns null; the trimmed name is looked up in
`COUNTRY_FLAGS`; a truthy result (an own string code or an inherited
prototype member) follows the `SPECIAL_FLAG_EMOJIS[code] || codeToFlag(code)`
path; otherwise the lowercase fallback loop over the own entries runs.
`Except.error` represents a thrown TypeError. -/
def getCountryFlag (countryName : String) : Except String (Option String) :=
  if countryName = "" then .ok none
  else
    let name := jsTrim countryName
    match objGet COUNTRY_FLAGS name with
    | .str code =>
      if code = "" then .ok (fuzzyScan (jsToLower name) COUNTRY_FLAGS)
      else flagForCodeInherited (.str code)
    | .protoFn arity => flagForCodeInherited (.protoFn arity)
    | .protoObj => flagForCodeInherited .protoObj
    | .undefinedJs => .ok (fuzzyScan (jsToLower name) COUNTRY_FLAGS)

/-! ### Shared fixtures for concrete witnesses -/

/-- A sample location payload, as in the tests' mock data. -/
def usLocation : Location :=
  { location := "United States", locationFlag := some "🇺🇸",
    source := "United States", sourceFlag := some "🇺🇸",
    sourceCountry := "United States", locationAccurate := true,
    isVpn := false, learnMoreUrl := none }

/-- A freshly created tweet container for screen name `k`: well-formed,
unprocessed, with no inserted elements. -/
def freshContainer (k : String) : Container :=
  { screenName := some k, hasUserName := true, flagAdded := none,
    hasButton := false, buttonName := none, hasFlagWrapper := false,
    flagText := none }

/-! ### Helper lemmas -/

theorem cacheGet_cacheSet_self (c : CacheList) (k : String) (v : CacheEntry) :
    cacheGet (cacheSet c k v) k = some v := by
  induction c with
  | nil => simp [cacheGet, cacheSet]
  | cons hd tl ih =>
    obtain ⟨k', v'⟩ := hd
    by_cases h : k' = k
    · simp [cacheGet, cacheSet, h]
    · simp [cacheGet, cacheSet, h, ih]

theorem cacheGet_cacheSet_ne (c : CacheList) (k k' : String) (v : CacheEntry)
    (h : k' ≠ k) : cacheGet (cacheSet c k v) k' = cacheGet c k' := by
  have h' : k ≠ k' := Ne.symm h
  induction c with
  | nil => simp [cacheGet, cacheSet, h']
  | cons hd tl ih =>
    obtain ⟨ka, va⟩ := hd
    by_cases hk : ka = k
    · subst hk
      simp [cacheGet, cacheSet, h']
    · simp [cacheGet, cacheSet, hk, ih]

/-! ### The claims -/

/-- C2: the expiry check reports a miss (expired) exactly when the entry is
absent, its expiry field is missing, or its expiry timestamp is at most the
current time; an entry whose expiry is strictly greater than now is
reported valid. -/
theorem isCacheEntryExpired_iff (entry : Option CacheEntry) (now : Nat) :
    isCacheEntryExpired entry now = true ↔
      entry = none ∨
        ∃ e, entry = some e ∧
          (e.expiry = none ∨ ∃ t, e.expiry = some t ∧ t ≤ now) := by
  cases entry with
  | none => simp [isCacheEntryExpired]
  | some e =>
    cases he : e.expiry with
    | none => simp [isCacheEntryExpired, he]
    | some t =>
      by_cases ht : t = 0
      · subst ht
        simp [isCacheEntryExpired, he]
      · simp [isCacheEntryExpired, he, ht]

/-- C7: a successful cache write stores the fetched location fields
unchanged together with an expiry of now plus the 30-day TTL, and
unconditionally overwrites any prior entry for the key while leaving all
other keys untouched. -/
theorem saveCacheEntry_spec (cache : CacheList) (username : String)
    (location : Location) (now : Nat) :
    cacheGet (saveCacheEntry cache username location now) username =
      some { loc := location,
             expiry := some (now + CACHE_EXPIRY_DAYS * 24 * 60 * 60 * 1000) } ∧
    CACHE_EXPIRY_DAYS * 24 * 60 * 60 * 1000 = 2592000000 ∧
    (∀ k, k ≠ username →
      cacheGet (saveCacheEntry cache username location now) k =
        cacheGet cache k) := by
  refine ⟨cacheGet_cacheSet_self cache username _, by norm_num [CACHE_EXPIRY_DAYS], ?_⟩
  intro k hk
  exact cacheGet_cacheSet_ne cache username k _ hk

/-- C8: running the mode-change handler, in either direction, never alters
the contents of the result cache: the cache after the handler equals the
cache before it, entry for entry. -/
theorem handleModeChange_preserves_cache (newMode : String)
    (cs : List Container) (cache : CacheList) :
    (handleModeChange newMode cs cache).2 = cache ∧
    ∀ k, cacheGet (handleModeChange newMode cs cache).2 k = cacheGet cache k :=
  ⟨rfl, fun _ => rfl⟩

/-- C9: with no persisted mode preference, the content script's `loadMode`
returns the eager mode `"auto"` without writing to storage, and the popup's
startup read applies the same default. -/
theorem loadMode_default (s : Storage) (h : s MODE_KEY = none) :
    (loadMode s).1 = MODE_AUTO ∧ (loadMode s).2 = s ∧
    popupInitMode s = MODE_AUTO ∧ MODE_AUTO = "auto" := by
  refine ⟨?_, rfl, ?_, rfl⟩
  · simp [loadMode, jsOr, h]
  · simp [popupInitMode, popupLoadMode, jsOr, h, DEFAULT_MODE, MODE_AUTO]

/-- Witness for C9 at the empty storage. -/
theorem loadMode_default_witness :
    ((fun _ => none : Storage) MODE_KEY = none) ∧
    (loadMode (fun _ => none)).1 = MODE_AUTO ∧
    popupInitMode (fun _ => none) = MODE_AUTO :=
  ⟨rfl, (loadMode_default (fun _ => none) rfl).1,
    (loadMode_default (fun _ => none) rfl).2.2.1⟩

theorem processUsernameWithMode_skip (mode : String) (cache : CacheList)
    (c : Container) (h : c.flagAdded = some "button") :
    processUsernameWithMode mode cache c = (c, []) := by
  unfold processUsernameWithMode
  cases hsn : c.screenName with
  | none => rfl
  | some k => simp [h]

theorem processIterate_button (mode : String) (cache : CacheList)
    (c : Container) (m : Nat) (h : c.flagAdded = some "button") :
    processIterate mode cache c m = (c, []) := by
  induction m with
  | zero => rfl
  | succ m ih =>
    simp [processIterate, processUsernameWithMode_skip mode cache c h, ih]

/-- C1: a key with a present, non-expired cache entry is displayed from the
cache with zero Fetcher requests, no button and no lingering `processing`
marker, and the processing step behaves identically for every mode (in
particular for `auto` and `manual`). -/
theorem cache_first_invariant (mode : String) (cache : CacheList)
    (c : Container) (k : String) (e : CacheEntry) (now : Nat)
    (hk : c.screenName = some k)
    (hstatus : c.flagAdded = none)
    (hbtn : c.hasButton = false)
    (hun : c.hasUserName = true)
    (hcache : cacheGet cache k = some e)
    (hvalid : isCacheEntryExpired (some e) now = false) :
    (processUsernameWithMode mode cache c).2 = [] ∧
    (processUsernameWithMode mode cache c).1.hasFlagWrapper = true ∧
    (processUsernameWithMode mode cache c).1.flagText =
      some (buildBracketedDisplay e.loc) ∧
    (processUsernameWithMode mode cache c).1.hasButton = false ∧
    (processUsernameWithMode mode cache c).1.flagAdded = some "true" ∧
    processUsernameWithMode mode cache c =
      processUsernameWithMode MODE_AUTO cache c ∧
    processUsernameWithMode mode cache c =
      processUsernameWithMode MODE_MANUAL cache c := by
  simp [processUsernameWithMode, displayLocationInfo, hk, hstatus, hbtn, hun,
    hcache]

/-- Witness for C1: a cached key processed in manual mode. -/
theorem cache_first_invariant_witness :
    cacheGet [("alice", ⟨usLocation, some 10⟩)] "alice" =
      some ⟨usLocation, some 10⟩ ∧
    isCacheEntryExpired (some ⟨usLocation, some 10⟩) 5 = false ∧
    (processUsernameWithMode MODE_MANUAL [("alice", ⟨usLocation, some 10⟩)]
        (freshContainer "alice")).2 = [] ∧
    (processUsernameWithMode MODE_MANUAL [("alice", ⟨usLocation, some 10⟩)]
        (freshContainer "alice")).1.hasFlagWrapper = true :=
  ⟨rfl, by decide,
    (cache_first_invariant MODE_MANUAL [("alice", ⟨usLocation, some 10⟩)]
      (freshContainer "alice") "alice" ⟨usLocation, some 10⟩ 5
      rfl rfl rfl rfl rfl (by decide)).1,
    (cache_first_invariant MODE_MANUAL [("alice", ⟨usLocation, some 10⟩)]
      (freshContainer "alice") "alice" ⟨usLocation, some 10⟩ 5
      rfl rfl rfl rfl rfl (by decide)).2.1⟩

/-- C4: in manual (deferred) mode a key with no cache entry is never
fetched, no matter how often the document is re-processed: every run issues
zero Fetcher requests and the only effect is the installed location button
(carrying that key); an explicit button click, by contrast, fetches exactly
the clicked key. -/
theorem deferred_mode_isolation (cache : CacheList) (c : Container)
    (k : String) (n : Nat)
    (hk : c.screenName = some k)
    (hcache : cacheGet cache k = none)
    (hstatus : c.flagAdded = none)
    (hun : c.hasUserName = true)
    (hfw : c.hasFlagWrapper = false)
    (hn : 1 ≤ n) :
    (processIterate MODE_MANUAL cache c n).2 = [] ∧
    (processIterate MODE_MANUAL cache c n).1.hasButton = true ∧
    (processIterate MODE_MANUAL cache c n).1.buttonName = some k ∧
    (processIterate MODE_MANUAL cache c n).1.flagAdded = some "button" ∧
    (processIterate MODE_MANUAL cache c n).1.hasFlagWrapper = false ∧
    (∀ reply, (handleButtonClick k reply).2 = [k]) := by
  obtain ⟨m, rfl⟩ : ∃ m, n = m + 1 := ⟨n - 1, by omega⟩
  have hstep : processUsernameWithMode MODE_MANUAL cache c =
      (addButtonToUsername c k, []) := by
    simp [processUsernameWithMode, hk, hstatus, hcache, MODE_MANUAL, MODE_AUTO]
  have hbtn : addButtonToUsername c k =
      { c with flagAdded := some "button", hasButton := true,
               buttonName := some k } := by
    simp [addButtonToUsername, jsTruthy, hstatus, hun]
  have hrest := processIterate_button MODE_MANUAL cache
    { c with flagAdded := some "button", hasButton := true,
             buttonName := some k } m rfl
  simp only [processIterate, hstep, hbtn, hrest]
  simp [hfw, handleButtonClick]

/-- Witness for C4: an uncached key processed three times in manual mode. -/
theorem deferred_mode_isolation_witness :
    cacheGet ([] : CacheList) "bob" = none ∧
    (processIterate MODE_MANUAL [] (freshContainer "bob") 3).2 = [] ∧
    (processIterate MODE_MANUAL [] (freshContainer "bob") 3).1.hasButton = true :=
  ⟨rfl,
    (deferred_mode_isolation [] (freshContainer "bob") "bob" 3
      rfl rfl rfl rfl rfl (by decide)).1,
    (deferred_mode_isolation [] (freshContainer "bob") "bob" 3
      rfl rfl rfl rfl rfl (by decide)).2.1⟩

theorem filter_key_map (key : String) (v : Location) (fids : List Nat) :
    ((fids.map (fun f => (key, f))).filter (fun p => p.1 = key)).map
      (fun p => (p.2, v)) = fids.map (fun f => (f, v)) := by
  induction fids with
  | nil => rfl
  | cons f fs ih => simp [ih]

theorem submitAll_claimed (key : String) (fids : List Nat) :
    ∀ st : Scheduler, st.claimed.contains key = true →
      submitAll st key fids =
        { st with waiters := st.waiters ++ fids.map (fun f => (key, f)) } := by
  induction fids with
  | nil => intro st _; simp [submitAll]
  | cons fid fids ih =>
    intro st h
    have hm : key ∈ st.claimed := by simpa using h
    have hsub : submitKey st key fid =
        { st with waiters := st.waiters ++ [(key, fid)] } := by
      simp [submitKey, hm]
    have h2 : ({ st with waiters := st.waiters ++ [(key, fid)] } :
        Scheduler).claimed.contains key = true := by
      simpa using hm
    rw [submitAll, hsub, ih _ h2]
    simp

/-- C3: submitting a key N times (N at least 2) while no earlier submission
for that key has resolved issues exactly one Fetcher invocation for the key,
and all N pending futures attach to the single in-flight lookup, so that
its completion resolves every one of them with the same value. -/
theorem dedup_single_dispatch (st : Scheduler) (key : String)
    (fids : List Nat)
    (hn : 2 ≤ fids.length)
    (hfree : st.claimed.contains key = false) :
    countKey (submitAll st key fids).dispatched key =
      countKey st.dispatched key + 1 ∧
    (submitAll st key fids).waiters =
      st.waiters ++ fids.map (fun f => (key, f)) ∧
    ∀ v, resolveFutures (submitAll st key fids) key v =
      resolveFutures st key v ++ fids.map (fun f => (f, v)) := by
  obtain ⟨fid, fids', rfl⟩ : ∃ f fs, fids = f :: fs := by
    cases fids with
    | nil => simp at hn
    | cons f fs => exact ⟨f, fs, rfl⟩
  have hm : key ∉ st.claimed := by simpa using hfree
  have hsub : submitKey st key fid =
      { claimed := st.claimed ++ [key],
        dispatched := st.dispatched ++ [key],
        waiters := st.waiters ++ [(key, fid)] } := by
    simp [submitKey, hm]
  have hcl : (submitKey st key fid).claimed.contains key = true := by
    rw [hsub]; simp
  have hall := submitAll_claimed key fids' _ hcl
  rw [hsub] at hall
  have hfull : submitAll st key (fid :: fids') =
      { claimed := st.claimed ++ [key],
        dispatched := st.dispatched ++ [key],
        waiters := (st.waiters ++ [(key, fid)]) ++
          fids'.map (fun f => (key, f)) } := by
    simp only [submitAll]
    rw [hsub, hall]
  refine ⟨?_, ?_, ?_⟩
  · rw [hfull]
    simp [countKey, List.filter_append]
  · rw [hfull]
    simp
  · intro v
    rw [hfull]
    simp only [resolveFutures, List.append_assoc, List.filter_append,
      List.map_append, filter_key_map]
    simp

/-- Witness for C3: two back-to-back submissions of one key from the empty
scheduler state. -/
theorem dedup_single_dispatch_witness :
    2 ≤ ([1, 2] : List Nat).length ∧
    (⟨[], [], []⟩ : Scheduler).claimed.contains "erin" = false ∧
    countKey (submitAll ⟨[], [], []⟩ "erin" [1, 2]).dispatched "erin" =
      countKey ([] : List String) "erin" + 1 :=
  ⟨by decide, by decide,
    (dedup_single_dispatch ⟨[], [], []⟩ "erin" [1, 2]
      (by decide) (by decide)).1⟩

/-- C6: after a failed lookup (timeout, transport failure or an empty
result) no cache write occurs for the key — the caller is resolved with
null, the cache is untouched, a prior miss for the key is still a miss (so
the key stays eligible for retry) — and only a successful outcome can ever
change the cache. -/
theorem no_negative_caching (cache : CacheList) (key : String) (now : Nat)
    (outcome : FetchOutcome)
    (hfail : ∀ v, outcome ≠ FetchOutcome.success v) :
    (completeLookup cache key outcome now).1 = cache ∧
    (completeLookup cache key outcome now).2 = none ∧
    cacheGet (completeLookup cache key outcome now).1 key = cacheGet cache key ∧
    (isCacheEntryExpired (cacheGet cache key) now = true →
      isCacheEntryExpired
        (cacheGet (completeLookup cache key outcome now).1 key) now = true) ∧
    (∀ (c' : CacheList) (o : FetchOutcome),
      (completeLookup c' key o now).1 ≠ c' →
        ∃ v, o = FetchOutcome.success v) := by
  have honly : ∀ (c' : CacheList) (o : FetchOutcome),
      (completeLookup c' key o now).1 ≠ c' →
        ∃ v, o = FetchOutcome.success v := by
    intro c' o hne
    cases o with
    | success v => exact ⟨v, rfl⟩
    | timeout => exact absurd rfl hne
    | transportFailure => exact absurd rfl hne
    | noResult => exact absurd rfl hne
  cases outcome with
  | success v => exact absurd rfl (hfail v)
  | timeout => exact ⟨rfl, rfl, rfl, fun h => h, honly⟩
  | transportFailure => exact ⟨rfl, rfl, rfl, fun h => h, honly⟩
  | noResult => exact ⟨rfl, rfl, rfl, fun h => h, honly⟩

/-- Witness for C6: a timeout for an uncached key leaves the cache empty. -/
theorem no_negative_caching_witness :
    (completeLookup [] "carol" FetchOutcome.timeout 0).1 = [] ∧
    (completeLookup [] "carol" FetchOutcome.timeout 0).2 = none :=
  ⟨(no_negative_caching [] "carol" 0 FetchOutcome.timeout
      (fun _ h => FetchOutcome.noConfusion h)).1,
    (no_negative_caching [] "carol" 0 FetchOutcome.timeout
      (fun _ h => FetchOutcome.noConfusion h)).2.1⟩

theorem validFrom_chain (cfg : RLConfig) :
    ∀ (evs : List RLEvent) (st : RateLimiterState) (prev : Nat),
      validFrom cfg st prev evs = true →
      List.Chain' (fun a b => a + cfg.minInterval ≤ b) (dispatchTimes evs) ∧
      (∀ a, st.lastDispatchAt = some a →
        ∀ b ∈ (dispatchTimes evs).head?, a + cfg.minInterval ≤ b) := by
  intro evs
  induction evs with
  | nil =>
    intro st prev _
    exact ⟨List.chain'_nil, fun a _ b hb => by simp [dispatchTimes] at hb⟩
  | cons ev rest ih =>
    intro st prev h
    cases ev with
    | dispatch t k o =>
      simp only [validFrom, Bool.and_eq_true, decide_eq_true_eq] at h
      obtain ⟨⟨hprev, hacq⟩, hrest⟩ := h
      obtain ⟨hchain, hhead⟩ := ih _ _ hrest
      have hnext : ∀ b ∈ (dispatchTimes rest).head?, t + cfg.minInterval ≤ b :=
        hhead t rfl
      refine ⟨?_, ?_⟩
      · simp only [dispatchTimes]
        exact List.chain'_cons'.mpr ⟨hnext, hchain⟩
      · intro a ha b hb
        -- the next dispatch time is t itself
        have hb' : t = b := by
          simp only [dispatchTimes, List.head?] at hb
          simpa using hb
        subst hb'
        simp only [tryAcquire, ha, Bool.and_eq_true, decide_eq_true_eq] at hacq
        exact hacq.1.2
    | release t =>
      simp only [validFrom, Bool.and_eq_true, decide_eq_true_eq] at h
      obtain ⟨⟨hprev, hpos⟩, hrest⟩ := h
      obtain ⟨hchain, hhead⟩ := ih _ _ hrest
      exact ⟨hchain, fun a ha => hhead a ha⟩
    | trip t u =>
      simp only [validFrom, Bool.and_eq_true, decide_eq_true_eq] at h
      obtain ⟨hprev, hrest⟩ := h
      obtain ⟨hchain, hhead⟩ := ih _ _ hrest
      exact ⟨hchain, fun a ha => hhead a ha⟩

theorem validFrom_inFlight (cfg : RLConfig) :
    ∀ (evs : List RLEvent) (st : RateLimiterState) (prev : Nat),
      validFrom cfg st prev evs = true →
      st.inFlightCount ≤ cfg.maxConcurrent →
      ∀ m ∈ inFlightProfile st.inFlightCount evs, m ≤ cfg.maxConcurrent := by
  intro evs
  induction evs with
  | nil => intro st prev _ _ m hm; simp [inFlightProfile] at hm
  | cons ev rest ih =>
    intro st prev h hle m hm
    cases ev with
    | dispatch t k o =>
      simp only [validFrom, Bool.and_eq_true, decide_eq_true_eq] at h
      obtain ⟨⟨hprev, hacq⟩, hrest⟩ := h
      simp only [tryAcquire, Bool.and_eq_true, decide_eq_true_eq] at hacq
      obtain ⟨⟨hlt, _⟩, _⟩ := hacq
      simp only [inFlightProfile, List.mem_cons] at hm
      rcases hm with rfl | hm
      · omega
      · exact ih _ _ hrest (by simp; omega) m hm
    | release t =>
      simp only [validFrom, Bool.and_eq_true, decide_eq_true_eq] at h
      obtain ⟨⟨hprev, hpos⟩, hrest⟩ := h
      simp only [inFlightProfile, List.mem_cons] at hm
      rcases hm with rfl | hm
      · omega
      · exact ih _ _ hrest (by simp; omega) m hm
    | trip t u =>
      simp only [validFrom, Bool.and_eq_true, decide_eq_true_eq] at h
      obtain ⟨hprev, hrest⟩ := h
      simp only [inFlightProfile, List.mem_cons] at hm
      rcases hm with rfl | hm
      · exact hle
      · exact ih _ _ hrest hle m hm

theorem validFrom_mapOrigin (cfg : RLConfig) (f : Origin → Origin) :
    ∀ (evs : List RLEvent) (st : RateLimiterState) (prev : Nat),
      validFrom cfg st prev (mapOrigin f evs) = validFrom cfg st prev evs := by
  intro evs
  induction evs with
  | nil => intro st prev; rfl
  | cons ev rest ih =>
    intro st prev
    cases ev with
    | dispatch t k o => simp [mapOrigin, validFrom, ih]
    | release t => simp [mapOrigin, validFrom, ih]
    | trip t u => simp [mapOrigin, validFrom, ih]

/-- C5: in every valid trace of the rate limiter, any two consecutive
dispatch start times are at least `minInterval` apart (which subsumes the
claim's allowance for dispatches on distinct concurrency slots), the number
of outstanding Fetcher calls never exceeds `maxConcurrent`, validity does
not depend on whether a dispatch originated from the automatic scan or a
manual button click, and the reference configuration is
`minInterval = 2000` ms, `maxConcurrent = 2`. -/
theorem rate_limits_enforced (cfg : RLConfig) (evs : List RLEvent)
    (h : validTrace cfg evs = true) :
    List.Chain' (fun a b => a + cfg.minInterval ≤ b) (dispatchTimes evs) ∧
    (∀ m ∈ inFlightProfile 0 evs, m ≤ cfg.maxConcurrent) ∧
    (∀ f : Origin → Origin,
      validTrace cfg (mapOrigin f evs) = validTrace cfg evs) ∧
    defaultConfig.minInterval = MIN_REQUEST_INTERVAL ∧
    MIN_REQUEST_INTERVAL = 2000 ∧
    defaultConfig.maxConcurrent = MAX_CONCURRENT_REQUESTS ∧
    MAX_CONCURRENT_REQUESTS = 2 := by
  refine ⟨(validFrom_chain cfg evs rlInit 0 h).1,
    validFrom_inFlight cfg evs rlInit 0 h (Nat.zero_le _),
    fun f => ?_, rfl, rfl, rfl, rfl⟩
  unfold validTrace
  rw [validFrom_mapOrigin cfg f evs rlInit 0]

/-- Witness for C5: a valid trace with two slots busy at time 0 is
impossible under the modelled contract, so the sample trace paces its second
dispatch 2000 ms after the first and keeps at most two calls in flight. -/
theorem rate_limits_enforced_witness :
    validTrace defaultConfig
      [RLEvent.dispatch 0 "a" Origin.manualClick, RLEvent.release 100,
       RLEvent.dispatch 2000 "b" Origin.autoScan, RLEvent.release 2500] = true ∧
    List.Chain' (fun a b => a + defaultConfig.minInterval ≤ b)
      (dispatchTimes
        [RLEvent.dispatch 0 "a" Origin.manualClick, RLEvent.release 100,
         RLEvent.dispatch 2000 "b" Origin.autoScan, RLEvent.release 2500]) :=
  ⟨by decide,
    (rate_limits_enforced defaultConfig
      [RLEvent.dispatch 0 "a" Origin.manualClick, RLEvent.release 100,
       RLEvent.dispatch 2000 "b" Origin.autoScan, RLEvent.release 2500]
      (by decide)).1⟩

theorem assocLookup_none {α : Type} (l : List (String × α)) (k : String)
    (h : ∀ p ∈ l, p.1 ≠ k) : assocLookup l k = none := by
  induction l with
  | nil => rfl
  | cons hd tl ih =>
    have hne : hd.1 ≠ k := h hd (List.mem_cons_self hd tl)
    obtain ⟨k', v⟩ := hd
    simp only [assocLookup]
    rw [if_neg hne]
    exact ih fun p hp => h p (List.mem_cons_of_mem _ hp)

theorem fuzzyScan_none (lower : String) (l : List (String × String))
    (h : ∀ p ∈ l, jsToLower p.1 ≠ lower ∧
      jsIncludes (jsToLower p.1) lower = false ∧
      jsIncludes lower (jsToLower p.1) = false) :
    fuzzyScan lower l = none := by
  induction l with
  | nil => rfl
  | cons hd tl ih =>
    obtain ⟨key, code⟩ := hd
    obtain ⟨hne, hincl1, hincl2⟩ := h (key, code) (List.mem_cons_self _ tl)
    simp only [fuzzyScan]
    rw [if_neg]
    · exact ih fun p hp => h p (List.mem_cons_of_mem _ hp)
    · simp [hne, hincl1, hincl2]

theorem assocLookup_mem {α : Type} (l : List (String × α)) (k : String)
    (v : α) (h : assocLookup l k = some v) : (k, v) ∈ l := by
  induction l with
  | nil => simp [assocLookup] at h
  | cons hd tl ih =>
    obtain ⟨k', v'⟩ := hd
    by_cases hk : k' = k
    · subst hk
      simp [assocLookup] at h
      subst h
      exact List.mem_cons_self _ _
    · simp only [assocLookup, if_neg hk] at h
      exact List.mem_cons_of_mem _ (ih h)

theorem protoArity_two (name : String)
    (h : assocLookup objectProtoMembers name = some 2) :
    name = "__defineGetter__" ∨ name = "__defineSetter__" := by
  have hm := assocLookup_mem _ _ _ h
  simp only [objectProtoMembers, List.mem_cons, List.not_mem_nil, or_false,
    Prod.mk.injEq] at hm
  rcases hm with ⟨ha, hb⟩ | ⟨ha, hb⟩ | ⟨ha, hb⟩ | ⟨ha, hb⟩ | ⟨ha, hb⟩ |
    ⟨ha, hb⟩ | ⟨ha, hb⟩ | ⟨ha, hb⟩ | ⟨ha, hb⟩ | ⟨ha, hb⟩ | ⟨ha, hb⟩ <;>
    simp_all

/-- C10 (counterexample): `getCountryFlag` is not exception-free.  The input
`"__defineGetter__"` hits the inherited `Object.prototype.__defineGetter__`
function via the bracket lookup on the `COUNTRY_FLAGS` object literal; the
function is truthy and its `.length` is 2, so `codeToFlag` passes the length
check and then calls `charCodeAt` on a function, throwing a TypeError
instead of returning a flag string or null. -/
theorem getCountryFlag_defineGetter_throws :
    getCountryFlag "__defineGetter__" =
      Except.error "TypeError: code.charCodeAt is not a function" := by
  rfl

/-- C10 (amended): `getCountryFlag` returns a flag string or null for every
input whose JS-trimmed name is not one of the two arity-2 inherited
`Object.prototype` members (`__defineGetter__`, `__defineSetter__`, on which
it throws a TypeError) — whether it throws depends only on the trimmed name,
never on case mapping, and `jsTrim` implements the full ECMA-262 trim set;
it returns null for the empty input; for all-ASCII inputs (the domain on
which `jsToLower` models JS `toLowerCase`) it returns null for every name
matching no table entry under exact, case-insensitive or substring matching;
and `codeToFlag` returns null for any code that is not exactly two
characters in the range A–Z (character codes 65–90). -/
theorem getCountryFlag_total (countryName : String)
    (h1 : jsTrim countryName ≠ "__defineGetter__")
    (h2 : jsTrim countryName ≠ "__defineSetter__") :
    (∃ r : Option String, getCountryFlag countryName = Except.ok r) ∧
    getCountryFlag "" = Except.ok none ∧
    (allAscii countryName = true →
      (∀ p ∈ COUNTRY_FLAGS,
        p.1 ≠ jsTrim countryName ∧
        jsToLower p.1 ≠ jsToLower (jsTrim countryName) ∧
        jsIncludes (jsToLower p.1) (jsToLower (jsTrim countryName)) = false ∧
        jsIncludes (jsToLower (jsTrim countryName)) (jsToLower p.1) = false) →
      getCountryFlag countryName = Except.ok none) ∧
    (∀ code : String,
      (∀ c1 c2, code.data = [c1, c2] →
        ¬(65 ≤ c1.toNat ∧ c1.toNat ≤ 90 ∧ 65 ≤ c2.toNat ∧ c2.toNat ≤ 90)) →
      codeToFlag code = none) := by
  have harity : ∀ n, assocLookup objectProtoMembers (jsTrim countryName) =
      some n → n ≠ 2 := by
    intro n hl hn
    subst hn
    rcases protoArity_two _ hl with hg | hg
    · exact h1 hg
    · exact h2 hg
  refine ⟨?_, rfl, ?_, ?_⟩
  · by_cases hcn : countryName = ""
    · subst hcn
      exact ⟨none, rfl⟩
    · cases hobj : objGet COUNTRY_FLAGS (jsTrim countryName) with
      | str code =>
        by_cases hc : code = ""
        · exact ⟨fuzzyScan (jsToLower (jsTrim countryName)) COUNTRY_FLAGS,
            by simp [getCountryFlag, hcn, hobj, hc]⟩
        · exact ⟨flagForCode code,
            by simp [getCountryFlag, hcn, hobj, hc, flagForCodeInherited]⟩
      | protoFn arity =>
        have hlk : assocLookup objectProtoMembers (jsTrim countryName) =
            some arity := by
          simp only [objGet] at hobj
          cases hex : assocLookup COUNTRY_FLAGS (jsTrim countryName) with
          | some s => simp [hex] at hobj
          | none =>
            rw [hex] at hobj
            by_cases hp : jsTrim countryName = "__proto__"
            · simp [hp] at hobj
            · simp only [if_neg hp] at hobj
              cases hl : assocLookup objectProtoMembers (jsTrim countryName) with
              | none => simp [hl] at hobj
              | some n =>
                simp [hl] at hobj
                rw [hobj]
        have hne2 : arity ≠ 2 := harity arity hlk
        exact ⟨none, by simp [getCountryFlag, hcn, hobj, flagForCodeInherited, hne2]⟩
      | protoObj =>
        exact ⟨none, by simp [getCountryFlag, hcn, hobj, flagForCodeInherited]⟩
      | undefinedJs =>
        exact ⟨fuzzyScan (jsToLower (jsTrim countryName)) COUNTRY_FLAGS,
          by simp [getCountryFlag, hcn, hobj]⟩
  · intro _hascii hnomatch
    by_cases hcn : countryName = ""
    · subst hcn
      rfl
    · have hexact : assocLookup COUNTRY_FLAGS (jsTrim countryName) = none :=
        assocLookup_none _ _ fun p hp => (hnomatch p hp).1
      have hfuzzy : fuzzyScan (jsToLower (jsTrim countryName)) COUNTRY_FLAGS =
          none :=
        fuzzyScan_none _ _ fun p hp => (hnomatch p hp).2
      by_cases hp : jsTrim countryName = "__proto__"
      · have hobj : objGet COUNTRY_FLAGS (jsTrim countryName) =
            JsProp.protoObj := by
          unfold objGet
          rw [hexact]
          simp [hp]
        simp [getCountryFlag, hcn, hobj, flagForCodeInherited]
      · cases hl : assocLookup objectProtoMembers (jsTrim countryName) with
        | some n =>
          have hobj : objGet COUNTRY_FLAGS (jsTrim countryName) =
              JsProp.protoFn n := by
            unfold objGet
            rw [hexact]
            simp [hp, hl]
          have hne2 : n ≠ 2 := harity n hl
          simp [getCountryFlag, hcn, hobj, flagForCodeInherited, hne2]
        | none =>
          have hobj : objGet COUNTRY_FLAGS (jsTrim countryName) =
              JsProp.undefinedJs := by
            unfold objGet
            rw [hexact]
            simp [hp, hl]
          simp [getCountryFlag, hcn, hobj, hfuzzy]
  · intro code hcode
    match hdata : code.data with
    | [] => simp [codeToFlag, hdata]
    | [c] => simp [codeToFlag, hdata]
    | c1 :: c2 :: c3 :: rest => simp [codeToFlag, hdata]
    | [c1, c2] =>
      have hrange := hcode c1 c2 hdata
      simp only [codeToFlag, hdata]
      split
      · rfl
      · next hcond =>
        exfalso
        simp only [Bool.or_eq_true, decide_eq_true_eq, not_or] at hcond
        omega

/-- Witness for C10: a name that is no prototype member gets an
exception-free answer. -/
theorem getCountryFlag_total_witness :
    jsTrim "Brazil" ≠ "__defineGetter__" ∧
    (∃ r : Option String, getCountryFlag "Brazil" = Except.ok r) ∧
    codeToFlag "B7" = none :=
  ⟨by decide,
    (getCountryFlag_total "Brazil" (by decide) (by decide)).1,
    (getCountryFlag_total "Brazil" (by decide) (by decide)).2.2.2 "B7"
      (fun c1 c2 hd => by
        have hd' : ['B', '7'] = [c1, c2] := hd
        obtain ⟨hc1, hd''⟩ := List.cons_eq_cons.mp hd'
        obtain ⟨hc2, -⟩ := List.cons_eq_cons.mp hd''
        subst hc1
        subst hc2
        decide)⟩

end TwitterLoc
